import Mathlib

/-!
# Verification of the VLC plugin bank (`src/modules/bank.c`)

A shallow embedding of the module-bank code of `bank.c`: the plugin
descriptor data model, the bank reference-counting lifecycle
(`module_InitBank`, `module_LoadPlugins`, `module_EndBank`), the plugin
file scanner (`AllocatePluginFile`), the bounded-depth directory walker
(`AllocatePluginDir` / `AllocatePluginPath`), the enumeration API
(`module_list_get`, `module_list_cap`) and the lazy mapper (`module_Map`).

Out-of-process effects (the dynamic linker, `stat`, `readdir`, the
on-disk cache and the describe protocol) are inputs of the embedded
functions: each embedded function takes the outcomes of those primitive
calls as parameters and computes exactly what the C code computes from
them.  Machine/OS specifics: the non-OS/2 branch of the filename filter
is modelled (the `__OS2__` conditional picks the other branch only on
OS/2), and `HAVE_DYNAMIC_PLUGINS` is taken as defined.

Helpers from files of the repository that are not under `src/`
(`module_provides`, `CacheMerge`, the `submodule_count` bookkeeping of
`vlc_module_create`) are modelled from the spec and marked as such in
their doc comments.
-/

namespace VlcBank

/-- A file or directory name: a C string, modelled as its character list. -/
abbrev Name := List Char

/-- A filesystem path, modelled as its list of components (the C code
joins components with `DIR_SEP`). -/
abbrev DirPath := List Name

/-- Result of `stat`: which `S_IS*` predicate holds for the file
(`S_ISREG`, `S_ISDIR`, anything else). -/
inductive FileKind where
  | regular
  | directory
  | other
deriving DecidableEq, Repr

/-- The filesystem as seen by the walker through its two primitives:
`readdir` returns the entries of a directory (`none` = `vlc_opendir`
failed), `stat` returns the kind of a path (`none` = `vlc_stat` failed).
Nothing forces the described tree to be finite, so symlink cycles
(arbitrarily deep paths) are representable. -/
structure FS where
  readdir : DirPath → Option (List Name)
  stat : DirPath → Option FileKind

/-- One entry of a module's config table (`module_config_t`), keeping the
fields read by `bank.c`: `list_count` and whether the two
list-enumeration callback pointers `list.psz_cb` / `list.i_cb` are
non-NULL. -/
structure ConfigItem where
  list_count : Nat
  psz_cb : Bool
  i_cb : Bool
deriving DecidableEq, Repr

/-- The scalar fields of a `module_t` that `bank.c` reads or writes. -/
structure ModuleFields where
  b_loaded : Bool
  b_unloadable : Bool
  psz_filename : Option String
  i_score : Int
  psz_capability : String
  p_config : List ConfigItem
deriving DecidableEq, Repr

/-- A `module_t`: its scalar fields plus the linked list of submodules
hanging off the primary module (`mod->submodule` / `subm->next`). -/
inductive Module where
  | mk : ModuleFields → List Module → Module

/-- The scalar fields of a module. -/
def Module.fields : Module → ModuleFields
  | .mk f _ => f

/-- The submodule chain of a module. -/
def Module.submodule : Module → List Module
  | .mk _ s => s

/-- Replace the scalar fields of a module, keeping its submodules. -/
def Module.withFields (m : Module) (f : ModuleFields) : Module :=
  .mk f m.submodule

def Module.b_loaded (m : Module) : Bool := m.fields.b_loaded

def Module.b_unloadable (m : Module) : Bool := m.fields.b_unloadable

def Module.psz_filename (m : Module) : Option String := m.fields.psz_filename

def Module.i_score (m : Module) : Int := m.fields.i_score

def Module.psz_capability (m : Module) : String := m.fields.psz_capability

def Module.p_config (m : Module) : List ConfigItem := m.fields.p_config

/-- Modelled from the spec: `submodule_count` is the length of the
submodule list on the primary module, maintained by `vlc_module_create`
(`modules/entry.c`, not under `src/`). -/
def Module.submodule_count (m : Module) : Nat := m.submodule.length

/-- A `vlc_plugin_t` descriptor: the primary module (`plugin->module`,
asserted non-NULL throughout `bank.c`, hence not optional here), the
relative path and the filesystem identity stamped by the scanner.  The
`next` link is modelled by membership in a `List Plugin`. -/
structure Plugin where
  module : Module
  path : String
  mtime : Int
  size : Nat

/-- An element of the `modules.caches` chain: one memory-mapped cache
blob (`block_t`), opaque to `bank.c` except for its lifetime. -/
structure Block where
  id : Nat
deriving DecidableEq, Repr

/-- The static `modules` singleton of `bank.c` minus its mutex: the
descriptor list `libs`, the cache-blob chain `caches` and the reference
count `usage`. -/
structure BankGlobal where
  libs : List Plugin
  caches : List Block
  usage : Nat

/-- The initializer `{ VLC_STATIC_MUTEX, NULL, NULL, 0 }` of the
`modules` singleton. -/
def emptyBank : BankGlobal := { libs := [], caches := [], usage := 0 }

/-- `module_StoreBank`: prepend a descriptor to `modules.libs`. -/
def module_StoreBank (lib : Plugin) (s : BankGlobal) : BankGlobal :=
  { s with libs := lib :: s.libs }

/-- `module_InitStatic`: run the describe protocol on a
statically-linked entry point (its outcome, `vlc_plugin_describe entry`,
is the parameter) and stamp `b_loaded = true`, `b_unloadable = false`
on the primary module. -/
def module_InitStatic (describeResult : Option Plugin) : Option Plugin :=
  match describeResult with
  | none => none
  | some lib =>
      let m := lib.module.withFields
        { lib.module.fields with b_loaded := true, b_unloadable := false }
      some { lib with module := m }

/-- `module_InitDynamic`: load a shared object and initialize it.  The
combined outcome of `module_Load` + `module_Lookup` + the describe
protocol is the parameter `describeResult` (`none` when any of the three
steps failed).  On success the code stamps `psz_filename = strdup(path)`
and `b_loaded = true` on the primary module (`bank.c:150-157`). -/
def module_InitDynamic (describeResult : Option Plugin) (path : String) : Option Plugin :=
  match describeResult with
  | none => none
  | some plugin =>
      let m := plugin.module.withFields
        { plugin.module.fields with psz_filename := some path, b_loaded := true }
      some { plugin with module := m }

/-- `cache_mode_t` of `bank.c`. -/
inductive cache_mode_t where
  | CACHE_USE
  | CACHE_RESET
  | CACHE_IGNORE
deriving DecidableEq, Repr

/-- How one `AllocatePluginFile` call ends: a normal `return code` with
the resulting `modules.libs` and `bank->plugins` contents, an undefined
behaviour (a field write through a NULL `vlc_plugin_t *`), or a failed
`assert`. -/
inductive FileOutcome where
  | ret : Int → List Plugin → List Plugin → FileOutcome
  | nullDeref : FileOutcome
  | assertFailure : FileOutcome

/-- The config-scan condition of the loop at `bank.c:214-227`: some
config entry has `list_count == 0` and a non-NULL `list.psz_cb` or
`list.i_cb` while the module is not loaded. -/
def hasForcedCallback (module : Module) : Bool :=
  module.p_config.any fun c =>
    !module.b_loaded && c.list_count == 0 && (c.psz_cb || c.i_cb)

/-- `AllocatePluginFile` (`bank.c:180-235`).  The outcomes of
`vlc_cache_lookup` (already including the `strdup(abspath)` stamping
succeeding) and of the two possible `module_InitDynamic` calls (the
`fast=true` probe and the `fast=false` reload) are parameters, as are
the current `modules.libs` list and the `bank->plugins` array.

Note the source stamps `plugin->path` / `plugin->mtime` /
`plugin->size` on the result of `module_InitDynamic` *before* testing it
for NULL, so a failed load is a NULL dereference, not a `-1` return. -/
def AllocatePluginFile (mode : cache_mode_t) (cacheLookup : Option Plugin)
    (fastDescribe slowDescribe : Option Plugin)
    (abspath relpath : String) (st_mtime : Int) (st_size : Nat)
    (libs bankPlugins : List Plugin) : FileOutcome :=
  -- cache block (bank.c:186-198); the cache hit gets abspath stamped
  let fromCache : Option Plugin :=
    if mode = .CACHE_USE then
      match cacheLookup with
      | some cache =>
          let m := cache.module.withFields
            { cache.module.fields with psz_filename := some abspath }
          some { cache with module := m }
      | none => none
    else none
  -- load block (bank.c:199-205): the stamping writes through the load
  -- result without a NULL check, before the `if (plugin == NULL)` below
  let loaded : Option Plugin :=
    match fromCache with
    | some p => some p
    | none =>
        match module_InitDynamic fastDescribe abspath with
        | none => none
        | some p => some { p with path := relpath, mtime := st_mtime, size := st_size }
  match loaded with
  | none => .nullDeref
  | some plugin =>
    let module := plugin.module
    -- forced-load scan (bank.c:214-227)
    if hasForcedCallback module then
      if mode = .CACHE_RESET then .assertFailure
      else
        match module_InitDynamic slowDescribe abspath with
        | none => .ret (-1) libs bankPlugins
        | some plugin2 =>
            .ret 0 (plugin2 :: libs)
              (if mode ≠ .CACHE_IGNORE then bankPlugins ++ [plugin2] else bankPlugins)
    else
      .ret 0 (plugin :: libs)
        (if mode ≠ .CACHE_IGNORE then bankPlugins ++ [plugin] else bankPlugins)

/-- The `prefix[] = "lib"` constant of `AllocatePluginDir`. -/
def lib_pre : Name := ['l', 'i', 'b']

/-- The `suffix[] = "_plugin" LIBEXT` constant of `AllocatePluginDir`,
parameterized by the platform extension `LIBEXT`. -/
def plugin_suffix (libext : Name) : Name :=
  ['_', 'p', 'l', 'u', 'g', 'i', 'n'] ++ libext

/-- The filename test of `AllocatePluginDir` (`bank.c:293-295`, non-OS/2
branch): `len > strlen(suffix)`, `strncmp(file, prefix, strlen(prefix))
== 0` and `strcmp(file + len - strlen(suffix), suffix) == 0`. -/
def matchesFilter (libext file : Name) : Bool :=
  decide ((plugin_suffix libext).length < file.length)
    && decide (file.take lib_pre.length = lib_pre)
    && decide (file.drop (file.length - (plugin_suffix libext).length) = plugin_suffix libext)

/-- The spec's wording of the filename filter, for comparison with
`matchesFilter`: the name matches the pattern `lib*_plugin<libext>`,
i.e. it is `"lib"`, then an arbitrary stem, then `"_plugin"` and the
platform extension. -/
def spec_lib_plugin_pattern (libext file : Name) : Prop :=
  ∃ stem, file = lib_pre ++ stem ++ plugin_suffix libext

/-- `AllocatePluginDir` (`bank.c:240-312`), as the list of relative
paths of the regular files it hands to `AllocatePluginFile`, in
traversal order.  `maxdepth == 0` returns immediately; otherwise the
directory is read and each entry other than `.` and `..` is stat'ed:
matching regular files are collected, directories are recursed into with
the decremented depth.  `base` is `bank->base`; `reldir = none` models
the `reldir == NULL` root call. -/
def relOf (reldir : Option DirPath) (file : Name) : DirPath :=
  match reldir with
  | some r => r ++ [file]
  | none => [file]

def AllocatePluginDir (fs : FS) (libext : Name) (base : DirPath) :
    Nat → DirPath → Option DirPath → List DirPath
  | 0, _, _ => []
  | Nat.succ maxdepth, absdir, reldir =>
    match fs.readdir absdir with
    | none => []
    | some files =>
      files.flatMap fun file =>
        if file = ['.'] ∨ file = ['.', '.'] then []
        else
          let relpath : DirPath := relOf reldir file
          let abspath : DirPath := base ++ relpath
          match fs.stat abspath with
          | none => []
          | some FileKind.regular =>
              if matchesFilter libext file then [relpath] else []
          | some FileKind.directory =>
              AllocatePluginDir fs libext base maxdepth abspath (some relpath)
          | some FileKind.other => []

/-- The directory walk performed by `AllocatePluginPath`
(`bank.c:333-336`): `AllocatePluginDir(&bank, 5, path, NULL)` from the
search root.  The cache bookkeeping around the walk is not part of this
definition. -/
def AllocatePluginPathScan (fs : FS) (libext : Name) (path : DirPath) : List DirPath :=
  AllocatePluginDir fs libext path 5 path none

/-- The length of the longest chain of nested `AllocatePluginDir`
invocations performed from a call with the given arguments, counting the
call itself: a call with `maxdepth = 0` or a failed `opendir` contributes
just itself; otherwise `1 +` the deepest recursion among the directory
entries. -/
def AllocatePluginDirCalls (fs : FS) (base : DirPath) :
    Nat → DirPath → Option DirPath → Nat
  | 0, _, _ => 1
  | Nat.succ maxdepth, absdir, reldir =>
    match fs.readdir absdir with
    | none => 1
    | some files =>
      1 + files.foldr (fun file acc =>
        max
          (if file = ['.'] ∨ file = ['.', '.'] then 0
           else
             match fs.stat (base ++ relOf reldir file) with
             | some FileKind.directory =>
                 AllocatePluginDirCalls fs base maxdepth
                   (base ++ relOf reldir file) (some (relOf reldir file))
             | _ => 0)
          acc) 0

/-- A filesystem holding one chain `root/s/s/…/s` of `k` nested
subdirectories (every directory named `s`), with the single regular file
`file` inside the innermost one.  The search root is the empty path. -/
def chainFS (k : Nat) (file : Name) : FS where
  readdir p :=
    if p.length < k then some [['s']]
    else if p.length = k then some [file] else none
  stat p :=
    if p.length = k + 1 then some FileKind.regular
    else if p.length ≤ k then some FileKind.directory else none

/-- A cyclic filesystem: every directory contains one subdirectory `s`
(as a symlink loop would present it), so the directory tree is
unboundedly deep. -/
def loopFS : FS where
  readdir _ := some [['s']]
  stat _ := some FileKind.directory

/-- `"libZ_plugin.so"`. -/
def zName : Name := ['l', 'i', 'b', 'Z', '_', 'p', 'l', 'u', 'g', 'i', 'n', '.', 's', 'o']

/-- `".so"`, the `LIBEXT` of ELF platforms. -/
def soExt : Name := ['.', 's', 'o']

/-- `"foo_plugin.so"`. -/
def fooPluginName : Name := ['f', 'o', 'o', '_', 'p', 'l', 'u', 'g', 'i', 'n', '.', 's', 'o']

/-- `"libfoo.so"`. -/
def libfooName : Name := ['l', 'i', 'b', 'f', 'o', 'o', '.', 's', 'o']

/-- `module_InitBank` (`bank.c:413-440`).  The describe outcome of the
statically linked `vlc_entry__core` is the parameter `coreDescribe`.
When `usage == 0`, the core plugin is enrolled via `module_InitStatic`
and stored; `assert(plugin != NULL)` makes a failed core describe fatal,
modelled as `none`.  Then `usage` is incremented.  (`config_SortConfig`
and the mutex are outside this model.) -/
def module_InitBank (coreDescribe : Option Plugin) (s : BankGlobal) : Option BankGlobal :=
  if s.usage = 0 then
    match module_InitStatic coreDescribe with
    | none => none
    | some plugin => some { module_StoreBank plugin s with usage := s.usage + 1 }
  else
    some { s with usage := s.usage + 1 }

/-- `module_EndBank` (`bank.c:446-486`).  `assert(modules.usage > 0)` is
modelled as `none` on a zero count.  The count is decremented; only when
it reaches zero are `libs` and `caches` detached (and then unloaded,
destroyed and released), leaving the empty bank.  The `b_plugins`
parameter of the C function only selects who takes the lock. -/
def module_EndBank (s : BankGlobal) : Option BankGlobal :=
  if s.usage = 0 then none
  else if s.usage - 1 = 0 then some { libs := [], caches := [], usage := 0 }
  else some { s with usage := s.usage - 1 }

/-- `module_list_get` (`bank.c:536-564`) under the assumption that every
`realloc` succeeds: for each descriptor of `libs` in order, the primary
module followed by its submodule chain. -/
def module_list_get : List Plugin → List Module
  | [] => []
  | lib :: rest => lib.module :: (lib.module.submodule ++ module_list_get rest)

/-- The effect of `module_InitStaticModules` plus `AllocateAllPlugins`
on the bank: the descriptors they store (front of `modules.libs`, in
final order) and the cache blobs that `vlc_cache_load` chains onto
`modules.caches`. -/
structure ScanResult where
  plugins : List Plugin
  caches : List Block

/-- `module_LoadPlugins` (`bank.c:496-517`): when `usage == 1` the
static modules are enrolled and the plugin directories scanned (their
net effect on the bank is the parameter `scan`); in every case the
returned count is the length of `module_list_get` on the resulting
bank. -/
def module_LoadPlugins (scan : ScanResult) (s : BankGlobal) : Nat × BankGlobal :=
  let s' := if s.usage = 1 then
      { s with libs := scan.plugins ++ s.libs, caches := scan.caches ++ s.caches }
    else s
  ((module_list_get s'.libs).length, s')

/-- `modulecmp` (`bank.c:566-572`): the `qsort` comparator,
`(*mb)->i_score - (*ma)->i_score`. -/
def modulecmp (ma mb : Module) : Int := mb.i_score - ma.i_score

/-- The order that `qsort` establishes with `modulecmp`: `a` may precede
`b` when `modulecmp a b ≤ 0`, i.e. `b.i_score ≤ a.i_score`. -/
def moduleOrder (a b : Module) : Prop := modulecmp a b ≤ 0

instance : DecidableRel moduleOrder := fun a b => by
  unfold moduleOrder; infer_instance

instance : IsTotal Module moduleOrder where
  total a b := by
    unfold moduleOrder modulecmp; omega

instance : IsTrans Module moduleOrder where
  trans a b c hab hbc := by
    unfold moduleOrder modulecmp at *; omega

/-- Modelled from the spec: `module_provides` (`modules/modules.c`, not
under `src/`) — whether the module advertises the given capability. -/
def module_provides (m : Module) (cap : String) : Bool :=
  m.psz_capability == cap

/-- The first pass of `module_list_cap` (`bank.c:589-599`): count the
modules (primary and submodules, per descriptor) providing `cap`. -/
def listCapCount (libs : List Plugin) (cap : String) : Nat :=
  match libs with
  | [] => 0
  | lib :: rest =>
      (if module_provides lib.module cap then 1 else 0)
        + lib.module.submodule.countP (fun subm => module_provides subm cap)
        + listCapCount rest cap

/-- The second pass of `module_list_cap` (`bank.c:606-616`): the
matching modules in the order the fill loop writes them. -/
def listCapFill (libs : List Plugin) (cap : String) : List Module :=
  match libs with
  | [] => []
  | lib :: rest =>
      (if module_provides lib.module cap then [lib.module] else [])
        ++ lib.module.submodule.filter (fun subm => module_provides subm cap)
        ++ listCapFill rest cap

/-- `module_list_cap` (`bank.c:582-621`): count, allocate (`alloc_ok`
is the `malloc` outcome), fill, `qsort` with `modulecmp`.  Returns the
count and the array, or `-1` and a NULL array when allocation failed. -/
def module_list_cap (alloc_ok : Bool) (libs : List Plugin) (cap : String) :
    Int × Option (List Module) :=
  let n := listCapCount libs cap
  if alloc_ok = false then (-1, none)
  else ((n : Int), some (List.insertionSort moduleOrder (listCapFill libs cap)))

/-- Modelled from the spec: `CacheMerge` (`modules/cache.c`, not under
`src/`) transfers the runtime-only fields of the freshly loaded module
(OS handle, callback addresses) into the cache-resurrected module, which
is loaded afterwards. -/
def CacheMerge (cached _fresh : Module) : Module :=
  cached.withFields { cached.fields with b_loaded := true }

/-- `module_Map` (`bank.c:627-659`).  Acts on the plugin's primary
module (`module = plugin->module`).  If it is already loaded, nothing
happens and `0` is returned; otherwise `module_InitDynamic(...,
fast=false)` is retried (outcome parameter `slowDescribe`) and on
success merged into the cached module via `CacheMerge`; on failure `-1`
is returned and the module is left unloaded. -/
def module_Map (slowDescribe : Option Plugin) (plugin : Plugin) : Int × Plugin :=
  let module := plugin.module
  if module.b_loaded then (0, plugin)
  else
    match module_InitDynamic slowDescribe (module.psz_filename.getD "") with
    | some uncache => (0, { plugin with module := CacheMerge module uncache.module })
    | none => (-1, plugin)

/-- How many `module_Load` (dynamic linker) calls one `module_Map` call
performs: none when the module is already loaded, one otherwise
(`module_InitDynamic` is called exactly on the not-loaded path). -/
def module_MapLoads (plugin : Plugin) : Nat :=
  if plugin.module.b_loaded then 0 else 1

/-- The bank invariant of the spec: the reference count is zero exactly
when no descriptors and no cache blobs are held. -/
def bankInv (s : BankGlobal) : Prop :=
  s.usage = 0 ↔ (s.libs = [] ∧ s.caches = [])

/-- One matched `InitBank + LoadPlugins` / `EndBank` pair. -/
def bankCycle (coreDescribe : Option Plugin) (scan : ScanResult)
    (s : BankGlobal) : Option BankGlobal :=
  (module_InitBank coreDescribe s).bind fun s1 =>
    module_EndBank (module_LoadPlugins scan s1).2

/-! ## Helper lemmas -/

theorem hasForcedCallback_of_loaded {m : Module} (h : m.b_loaded = true) :
    hasForcedCallback m = false := by
  simp [hasForcedCallback, h]

theorem withFields_b_loaded (m : Module) (f : ModuleFields) :
    (m.withFields f).b_loaded = f.b_loaded := by
  cases m
  rfl

theorem loopFS_readdir (p : DirPath) : loopFS.readdir p = some [['s']] := rfl

theorem loopFS_stat (p : DirPath) : loopFS.stat p = some FileKind.directory := rfl

theorem foldr_max_le {α : Type} (l : List α) (f : α → Nat) (m : Nat)
    (h : ∀ x ∈ l, f x ≤ m) : l.foldr (fun x acc => max (f x) acc) 0 ≤ m := by
  induction l with
  | nil => exact Nat.zero_le m
  | cons a l ih =>
    simp only [List.foldr_cons]
    exact max_le (h a (List.mem_cons_self a l)) (ih fun x hx => h x (List.mem_cons_of_mem a hx))

theorem withFields_b_unloadable (m : Module) (f : ModuleFields) :
    (m.withFields f).b_unloadable = f.b_unloadable := by
  cases m
  rfl

theorem bankCycle_empty (core : Plugin) (scan : ScanResult) :
    bankCycle (some core) scan emptyBank = some emptyBank := by
  simp [bankCycle, emptyBank, module_InitBank, module_InitStatic, module_StoreBank,
    module_LoadPlugins, module_EndBank]

/-! ## Claim theorems -/

/-- C1: the claim says that when the cache misses (or the mode is not
`USE`) and `load_dynamic(abs_path, fast=true)` fails,
`AllocatePluginFile` returns `-1`, leaves the bank list unchanged and
performs no dereference of an absent descriptor.  The code instead
stamps `plugin->path` / `plugin->mtime` / `plugin->size` through the
NULL result of `module_InitDynamic` before its NULL check
(`bank.c:201-205`): at the failing input below, the call ends in a NULL
dereference, not in a `-1` return. -/
theorem allocate_file_load_failure_derefs_null :
    AllocatePluginFile .CACHE_USE none none none
      "/plugins/liba_plugin.so" "liba_plugin.so" 0 0 [] [] = .nullDeref := rfl

/-- C6: in `allocate_file`, a cache-resurrected descriptor whose
not-loaded primary module carries a config option with a
list-enumeration callback is destroyed and the plugin reloaded with
`load_dynamic(abs_path, fast=false)`, so the stored plugin has
`b_loaded = true`; and when the mode is `CACHE_RESET` the
`assert(bank->mode != CACHE_RESET)` on that path can never fire. -/
theorem allocate_file_callback_forces_eager_load :
    (∀ (cache slow : Plugin) (fastDescribe : Option Plugin)
       (abspath relpath : String) (mt : Int) (sz : Nat) (libs bankPlugins : List Plugin),
       cache.module.b_loaded = false →
       (∃ c ∈ cache.module.p_config, c.list_count = 0 ∧ (c.psz_cb = true ∨ c.i_cb = true)) →
       ∃ p, AllocatePluginFile .CACHE_USE (some cache) fastDescribe (some slow)
              abspath relpath mt sz libs bankPlugins
            = .ret 0 (p :: libs) (bankPlugins ++ [p])
          ∧ p.module.b_loaded = true)
    ∧ (∀ (cacheLookup fastDescribe slowDescribe : Option Plugin)
         (abspath relpath : String) (mt : Int) (sz : Nat) (libs bankPlugins : List Plugin),
         AllocatePluginFile .CACHE_RESET cacheLookup fastDescribe slowDescribe
           abspath relpath mt sz libs bankPlugins ≠ .assertFailure) := by
  constructor
  · intro cache slow fastDescribe abspath relpath mt sz libs bankPlugins hnl hcb
    obtain ⟨c, hc, hc0, hcb'⟩ := hcb
    cases hm : cache.module with
    | mk f subs =>
      rw [hm] at hnl hc
      simp [Module.b_loaded, Module.fields] at hnl
      simp [Module.p_config, Module.fields] at hc
      cases hs : slow.module with
      | mk g gsubs =>
        refine ⟨{ slow with module := (slow.module).withFields { (slow.module).fields with psz_filename := some abspath, b_loaded := true } }, ?_, ?_⟩
        · simp only [AllocatePluginFile, module_InitDynamic]
          have hforce : hasForcedCallback
              ((Module.mk f subs).withFields
                { (Module.mk f subs).fields with psz_filename := some abspath }) = true := by
            simp [hasForcedCallback, Module.withFields, Module.fields, Module.submodule,
                  Module.b_loaded, Module.p_config, hnl, List.any_eq_true]
            exact ⟨c, hc, by omega, by rcases hcb' with h | h <;> simp [h]⟩
          simp [hm, hforce]
        · rw [withFields_b_loaded]
  · intro cacheLookup fastDescribe slowDescribe abspath relpath mt sz libs bankPlugins
    simp only [AllocatePluginFile]
    cases fastDescribe with
    | none => simp [module_InitDynamic]
    | some p =>
      have hforce : hasForcedCallback
          (p.module.withFields
            { p.module.fields with psz_filename := some abspath, b_loaded := true }) = false := by
        apply hasForcedCallback_of_loaded
        rw [withFields_b_loaded]
      simp [module_InitDynamic, hforce]

/-- C2 counterexample: the claim says a matching plugin file under five
nested subdirectories of the root (`root/s/s/s/s/s/libZ_plugin.so`) is
discovered.  It is not: `AllocatePluginPath` starts the walk with
`maxdepth = 5` and `AllocatePluginDir` decrements before scanning, so
the walk opens the root and at most four nested subdirectories; the
fifth subdirectory is entered with `maxdepth == 0` and never read. -/
theorem depth_five_chain_not_discovered :
    matchesFilter soExt zName = true
    ∧ AllocatePluginPathScan (chainFS 5 zName) soExt [] = [] := by
  constructor
  · decide
  · decide

/-- C2 (amended): the walk from a search root has a hard depth cap of 5
directory levels counting the root itself: a matching plugin file under
four nested subdirectories (`root/s/s/s/s/libZ_plugin.so`) is
discovered, while the same file under five nested subdirectories is
not. -/
theorem depth_cap_scan_bound :
    AllocatePluginPathScan (chainFS 4 zName) soExt []
      = [[['s'], ['s'], ['s'], ['s'], zName]]
    ∧ AllocatePluginPathScan (chainFS 5 zName) soExt [] = [] := by
  constructor
  · decide
  · decide

/-- C10: `AllocatePluginDir` is total for every input because each
recursive call strictly decreases `maxdepth` and a call with
`maxdepth == 0` returns immediately: (a) at `maxdepth = 0` the walk
returns at once with no output; (b) on any filesystem — including one
with directory cycles, hence unboundedly deep — the chain of nested
invocations from a call with depth budget `maxdepth` has length at most
`maxdepth + 1` (the call itself plus at most `maxdepth` recursive
descents); (c) on the cyclic filesystem `loopFS` that bound is reached
exactly, the recursion stopping only because the budget runs out. -/
theorem allocate_dir_depth_bounded :
    (∀ (fs : FS) (libext : Name) (base absdir : DirPath) (reldir : Option DirPath),
        AllocatePluginDir fs libext base 0 absdir reldir = [])
    ∧ (∀ (fs : FS) (base : DirPath) (maxdepth : Nat) (absdir : DirPath)
         (reldir : Option DirPath),
        AllocatePluginDirCalls fs base maxdepth absdir reldir ≤ maxdepth + 1)
    ∧ (∀ (n : Nat) (absdir : DirPath) (reldir : Option DirPath),
        AllocatePluginDirCalls loopFS [] n absdir reldir = n + 1) := by
  refine ⟨fun _ _ _ _ _ => rfl, ?_, ?_⟩
  · intro fs base maxdepth
    induction maxdepth with
    | zero => intro absdir reldir; exact Nat.le_refl 1
    | succ n ih =>
      intro absdir reldir
      simp only [AllocatePluginDirCalls]
      split
      · omega
      · rename_i files heq
        have hb : files.foldr (fun file acc =>
            max
              (if file = ['.'] ∨ file = ['.', '.'] then 0
               else
                 match fs.stat (base ++ relOf reldir file) with
                 | some FileKind.directory =>
                     AllocatePluginDirCalls fs base n
                       (base ++ relOf reldir file) (some (relOf reldir file))
                 | _ => 0)
              acc) 0 ≤ n + 1 := by
          apply foldr_max_le
          intro x _
          split
          · omega
          · split
            · exact ih _ _
            · omega
        omega
  · intro n
    induction n with
    | zero => intro absdir reldir; rfl
    | succ n ih =>
      intro absdir reldir
      simp only [AllocatePluginDirCalls, loopFS_readdir, loopFS_stat,
        List.foldr_cons, List.foldr_nil]
      rw [if_neg (by decide), ih]
      simp only [Nat.max_zero]
      omega

/-- C7: on non-length-restricted platforms the walker considers a
regular file exactly when its name matches `lib*_plugin<libext>`: the
`len > strlen(suffix)` / `strncmp prefix` / `strcmp suffix` test of
`AllocatePluginDir` holds iff the name decomposes as `"lib"`, a stem,
then `"_plugin"` and the extension; in particular `foo_plugin.so` and
`libfoo.so` are not considered. -/
theorem filename_filter_iff_lib_plugin_pattern :
    (∀ (libext file : Name),
        matchesFilter libext file = true ↔ spec_lib_plugin_pattern libext file)
    ∧ matchesFilter soExt fooPluginName = false
    ∧ matchesFilter soExt libfooName = false := by
  refine ⟨?_, by decide, by decide⟩
  intro libext file
  unfold matchesFilter spec_lib_plugin_pattern
  constructor
  · intro h
    simp only [Bool.and_eq_true, decide_eq_true_eq] at h
    obtain ⟨⟨h1, h2⟩, h3⟩ := h
    set sl := (plugin_suffix libext).length with hsl
    have hlen : 3 + sl ≤ file.length := by
      by_contra hcon
      push_neg at hcon
      have hk : file.length - sl = 1 ∨ file.length - sl = 2 := by omega
      have hhead : file[file.length - sl]? = some '_' := by
        calc file[file.length - sl]?
            = (file.drop (file.length - sl)).head? := (List.head?_drop _ _).symm
          _ = some '_' := by rw [h3]; rfl
      have htake : ∀ i, i < 3 → file[i]? = lib_pre[i]? := by
        intro i hi
        calc file[i]? = (file.take lib_pre.length)[i]? :=
              (List.getElem?_take_of_lt (show i < lib_pre.length from hi)).symm
          _ = lib_pre[i]? := by rw [h2]
      rcases hk with hk | hk
      · rw [hk, htake 1 (by omega)] at hhead
        exact absurd hhead (by decide)
      · rw [hk, htake 2 (by omega)] at hhead
        exact absurd hhead (by decide)
    refine ⟨(file.drop 3).take (file.length - 3 - sl), ?_⟩
    have e2 : file.drop 3 = (file.drop 3).take (file.length - 3 - sl)
        ++ (file.drop 3).drop (file.length - 3 - sl) := (List.take_append_drop _ _).symm
    have e3 : (file.drop 3).drop (file.length - 3 - sl) = plugin_suffix libext := by
      rw [List.drop_drop]
      rw [show 3 + (file.length - 3 - sl) = file.length - sl from by omega]
      exact h3
    have e4 : file.take 3 = lib_pre := h2
    conv_lhs => rw [← List.take_append_drop 3 file, e4, e2, e3]
    rw [List.append_assoc]
  · rintro ⟨stem, rfl⟩
    have hlp : lib_pre.length = 3 := rfl
    simp only [Bool.and_eq_true, decide_eq_true_eq]
    refine ⟨⟨?_, ?_⟩, ?_⟩
    · simp only [List.length_append]
      omega
    · rw [List.append_assoc]
      exact List.take_left _ _
    · have hidx : (lib_pre ++ stem ++ plugin_suffix libext).length
          - (plugin_suffix libext).length = (lib_pre ++ stem).length := by
        simp only [List.length_append]
        omega
      rw [hidx]
      exact List.drop_left _ _

theorem module_list_get_eq_flatMap (libs : List Plugin) :
    module_list_get libs = libs.flatMap fun lib => lib.module :: lib.module.submodule := by
  induction libs with
  | nil => rfl
  | cons lib rest ih => simp [module_list_get, ih, List.flatMap_cons]

theorem module_list_get_length (libs : List Plugin) :
    (module_list_get libs).length
      = (libs.map fun lib => 1 + lib.module.submodule_count).sum := by
  induction libs with
  | nil => rfl
  | cons lib rest ih =>
    simp only [module_list_get, Module.submodule_count, List.map_cons, List.sum_cons,
      List.length_cons, List.length_append, ih]
    omega

theorem listCapFill_eq_filter (libs : List Plugin) (cap : String) :
    listCapFill libs cap
      = (module_list_get libs).filter fun m => module_provides m cap := by
  induction libs with
  | nil => rfl
  | cons lib rest ih =>
    by_cases hp : module_provides lib.module cap <;>
      simp [listCapFill, module_list_get, List.filter_cons, List.filter_append, hp, ih]

theorem listCapCount_eq_length (libs : List Plugin) (cap : String) :
    listCapCount libs cap = (listCapFill libs cap).length := by
  induction libs with
  | nil => rfl
  | cons lib rest ih =>
    by_cases hp : module_provides lib.module cap
    · simp [listCapCount, listCapFill, List.countP_eq_length_filter, hp, ih]
      omega
    · simp [listCapCount, listCapFill, List.countP_eq_length_filter, hp, ih]

/-- C3: `module_LoadPlugins` returns the total module count — the sum
over all descriptors in the resulting `libs` of `1 + submodule_count` —
and `module_list_get` enumerates, for each descriptor in order, its
primary module followed by its submodules. -/
theorem load_plugins_count_spec :
    ∀ (scan : ScanResult) (s : BankGlobal),
      (module_LoadPlugins scan s).1
        = ((module_LoadPlugins scan s).2.libs.map
            (fun lib => 1 + lib.module.submodule_count)).sum
      ∧ module_list_get (module_LoadPlugins scan s).2.libs
          = (module_LoadPlugins scan s).2.libs.flatMap
              (fun lib => lib.module :: lib.module.submodule) := by
  intro scan s
  exact ⟨module_list_get_length _, module_list_get_eq_flatMap _⟩

/-- C4: `module_list_cap` returns the number of modules (primary and
submodules alike) providing `cap`, and an array holding exactly those
modules sorted non-increasing by score; on allocation failure it
returns `-1` with the output array NULL. -/
theorem list_cap_spec :
    ∀ (libs : List Plugin) (cap : String),
      module_list_cap false libs cap = (-1, none)
      ∧ (module_list_cap true libs cap).1
          = (((module_list_get libs).filter
               (fun m => module_provides m cap)).length : Int)
      ∧ ∃ l, (module_list_cap true libs cap).2 = some l
          ∧ l.Perm ((module_list_get libs).filter (fun m => module_provides m cap))
          ∧ l.Sorted (fun a b => b.i_score ≤ a.i_score) := by
  intro libs cap
  refine ⟨rfl, ?_, List.insertionSort moduleOrder (listCapFill libs cap), ?_, ?_, ?_⟩
  · simp only [module_list_cap]
    rw [listCapCount_eq_length, listCapFill_eq_filter]
    simp
  · simp [module_list_cap]
  · rw [← listCapFill_eq_filter]
    exact List.perm_insertionSort _ _
  · refine (List.sorted_insertionSort moduleOrder _).imp ?_
    intro a b h
    unfold moduleOrder modulecmp at h
    omega

/-- C5: the bank is reference-counted — (a) for any `n`, `n` matched
`InitBank + LoadPlugins` / `EndBank` pairs starting from the empty bank
leave it empty again; (b) an `EndBank` that does not bring `usage` to
zero leaves `libs` and `caches` untouched (descriptors and cache blobs
are detached and destroyed only by the last `EndBank`); (c) the
invariant `usage == 0 ⇔ libs = ∅ ∧ caches = ∅` is preserved by
`InitBank`, `LoadPlugins` and `EndBank`. -/
theorem bank_refcount_lifecycle :
    (∀ (core : Plugin) (scan : ScanResult) (n : Nat),
        (fun os => os.bind (bankCycle (some core) scan))^[n] (some emptyBank)
          = some emptyBank)
    ∧ (∀ s : BankGlobal, 2 ≤ s.usage →
        module_EndBank s = some { s with usage := s.usage - 1 })
    ∧ (∀ s : BankGlobal, bankInv s →
        (∀ (core : Option Plugin) (s' : BankGlobal),
            module_InitBank core s = some s' → bankInv s')
        ∧ (∀ scan : ScanResult, bankInv (module_LoadPlugins scan s).2)
        ∧ (∀ s' : BankGlobal, module_EndBank s = some s' → bankInv s')) := by
  refine ⟨?_, ?_, ?_⟩
  · intro core scan n
    induction n with
    | zero => rfl
    | succ n ih =>
      rw [Function.iterate_succ_apply]
      simp only [Option.some_bind, bankCycle_empty]
      exact ih
  · intro s h
    simp only [module_EndBank]
    rw [if_neg (by omega), if_neg (by omega)]
  · intro s hinv
    refine ⟨?_, ?_, ?_⟩
    · intro core s' h
      by_cases hu : s.usage = 0
      · rw [module_InitBank, if_pos hu] at h
        cases hcd : module_InitStatic core with
        | none => rw [hcd] at h; exact absurd h (by simp)
        | some p =>
          rw [hcd] at h
          obtain rfl := Option.some.inj h
          simp [bankInv, module_StoreBank]
      · rw [module_InitBank, if_neg hu] at h
        obtain rfl := Option.some.inj h
        exact iff_of_false (show ¬(s.usage + 1 = 0) by omega) (fun hp => hu (hinv.mpr hp))
    · intro scan
      by_cases hu : s.usage = 1
      · have hs : (module_LoadPlugins scan s).2 = { s with libs := scan.plugins ++ s.libs, caches := scan.caches ++ s.caches } := by
          simp [module_LoadPlugins, hu]
        rw [hs]
        refine iff_of_false (show ¬(s.usage = 0) by omega) ?_
        rintro ⟨hl, hc⟩
        rw [List.append_eq_nil] at hl hc
        have h0 : s.usage = 0 := hinv.mpr ⟨hl.2, hc.2⟩
        omega
      · have hs : (module_LoadPlugins scan s).2 = s := by
          simp [module_LoadPlugins, hu]
        rw [hs]
        exact hinv
    · intro s' h
      by_cases h0 : s.usage = 0
      · rw [module_EndBank, if_pos h0] at h
        exact absurd h (by simp)
      · by_cases h1 : s.usage - 1 = 0
        · rw [module_EndBank, if_neg h0, if_pos h1] at h
          obtain rfl := Option.some.inj h
          simp [bankInv]
        · rw [module_EndBank, if_neg h0, if_neg h1] at h
          obtain rfl := Option.some.inj h
          exact iff_of_false (show ¬(s.usage - 1 = 0) from h1) (fun hp => h0 (hinv.mpr hp))

/-- C5 witness: a non-final `EndBank` (from `usage = 2`) only decrements
the count, and the invariant is preserved by `LoadPlugins` at a
concrete invariant-satisfying state. -/
theorem bank_refcount_lifecycle_witness :
    (2 ≤ (BankGlobal.mk [] [Block.mk 0] 2).usage
      ∧ module_EndBank (BankGlobal.mk [] [Block.mk 0] 2)
          = some (BankGlobal.mk [] [Block.mk 0] 1))
    ∧ (bankInv (BankGlobal.mk [] [Block.mk 0] 1)
      ∧ bankInv (module_LoadPlugins (ScanResult.mk [] [])
          (BankGlobal.mk [] [Block.mk 0] 1)).2) := by
  refine ⟨⟨by decide, ?_⟩, ⟨?_, ?_⟩⟩
  · exact bank_refcount_lifecycle.2.1 (BankGlobal.mk [] [Block.mk 0] 2) (by decide)
  · simp [bankInv]
  · exact (bank_refcount_lifecycle.2.2 (BankGlobal.mk [] [Block.mk 0] 1)
      (by simp [bankInv])).2.1 (ScanResult.mk [] [])

/-- C8: `module_Map` is idempotent — a call on an already-loaded module
performs no dynamic load and returns `0` leaving the plugin unchanged,
and after any successful call a second call performs no dynamic load,
returns `0` and the same plugin, so two calls make at most one dynamic
`Load` call in total. -/
theorem module_map_idempotent :
    (∀ (d : Option Plugin) (p : Plugin), p.module.b_loaded = true →
        module_Map d p = (0, p) ∧ module_MapLoads p = 0)
    ∧ (∀ (d d' : Option Plugin) (p : Plugin), (module_Map d p).1 = 0 →
        module_Map d' (module_Map d p).2 = (0, (module_Map d p).2)
        ∧ module_MapLoads (module_Map d p).2 = 0
        ∧ module_MapLoads p + module_MapLoads (module_Map d p).2 ≤ 1) := by
  constructor
  · intro d p h
    exact ⟨by simp [module_Map, h], by simp [module_MapLoads, h]⟩
  · intro d d' p h
    have hl : (module_Map d p).2.module.b_loaded = true := by
      by_cases hb : p.module.b_loaded = true
      · simp [module_Map, hb]
      · replace hb : p.module.b_loaded = false := by
          simpa using hb
        cases d with
        | none => simp [module_Map, module_InitDynamic, hb] at h
        | some q =>
          simp only [module_Map, hb, Bool.false_eq_true, if_false, module_InitDynamic,
            CacheMerge]
          rw [withFields_b_loaded]
    generalize hq : (module_Map d p).2 = q2
    rw [hq] at hl
    refine ⟨by simp [module_Map, hl], by simp [module_MapLoads, hl], ?_⟩
    have h2 : module_MapLoads q2 = 0 := by simp [module_MapLoads, hl]
    have h1 : module_MapLoads p ≤ 1 := by
      unfold module_MapLoads
      split
      · omega
      · omega
    omega

/-- C8 witness: mapping an already-loaded plugin is a no-op returning 0,
and after a successful map of an unloaded plugin the second map is a
no-op too. -/
theorem module_map_idempotent_witness :
    ((Plugin.mk (Module.mk (ModuleFields.mk true true (some "f") 0 "c" []) []) "p" 0 0).module.b_loaded = true
      ∧ module_Map none (Plugin.mk (Module.mk (ModuleFields.mk true true (some "f") 0 "c" []) []) "p" 0 0)
          = (0, Plugin.mk (Module.mk (ModuleFields.mk true true (some "f") 0 "c" []) []) "p" 0 0))
    ∧ ((module_Map (some (Plugin.mk (Module.mk (ModuleFields.mk false true (some "g") 0 "c" []) []) "q" 0 0))
          (Plugin.mk (Module.mk (ModuleFields.mk false true (some "g") 0 "c" []) []) "q" 0 0)).1 = 0
      ∧ module_MapLoads (module_Map (some (Plugin.mk (Module.mk (ModuleFields.mk false true (some "g") 0 "c" []) []) "q" 0 0))
          (Plugin.mk (Module.mk (ModuleFields.mk false true (some "g") 0 "c" []) []) "q" 0 0)).2 = 0) := by
  refine ⟨⟨rfl, ?_⟩, ⟨rfl, ?_⟩⟩
  · exact (module_map_idempotent.1 none
      (Plugin.mk (Module.mk (ModuleFields.mk true true (some "f") 0 "c" []) []) "p" 0 0) rfl).1
  · exact (module_map_idempotent.2
      (some (Plugin.mk (Module.mk (ModuleFields.mk false true (some "g") 0 "c" []) []) "q" 0 0))
      none
      (Plugin.mk (Module.mk (ModuleFields.mk false true (some "g") 0 "c" []) []) "q" 0 0) rfl).2.1

/-- C9: the first `InitBank` call (from `usage = 0`, empty bank) leaves
exactly one descriptor in `libs` — the statically enrolled core plugin,
whose primary module has `b_loaded = true` and `b_unloadable = false` —
and a failed core describe is fatal (`assert(plugin != NULL)`). -/
theorem init_bank_static_core :
    ∀ (core : Plugin) (s : BankGlobal), s.usage = 0 → s.libs = [] →
      (∃ p, module_InitStatic (some core) = some p
         ∧ module_InitBank (some core) s = some { s with libs := [p], usage := 1 }
         ∧ p.module.b_loaded = true ∧ p.module.b_unloadable = false)
      ∧ module_InitBank none s = none := by
  intro core s hu hl
  constructor
  · refine ⟨{ core with module := core.module.withFields { core.module.fields with b_loaded := true, b_unloadable := false } }, rfl, ?_, ?_, ?_⟩
    · simp [module_InitBank, hu, module_InitStatic, module_StoreBank, hl]
    · rw [withFields_b_loaded]
    · rw [withFields_b_unloadable]
  · simp [module_InitBank, hu, module_InitStatic]

/-- C9 witness: the first `InitBank` on the empty bank with a concrete
core describe outcome. -/
theorem init_bank_static_core_witness :
    ∃ p, module_InitStatic
          (some (Plugin.mk (Module.mk (ModuleFields.mk false true none 0 "core" []) []) "" 0 0)) = some p
       ∧ module_InitBank
          (some (Plugin.mk (Module.mk (ModuleFields.mk false true none 0 "core" []) []) "" 0 0)) emptyBank
          = some { emptyBank with libs := [p], usage := 1 }
       ∧ p.module.b_loaded = true ∧ p.module.b_unloadable = false :=
  (init_bank_static_core
    (Plugin.mk (Module.mk (ModuleFields.mk false true none 0 "core" []) []) "" 0 0)
    emptyBank rfl rfl).1

/-- C6 witness: a concrete cache-resurrected unloaded plugin with one
callback-bearing config option is reloaded eagerly and stored with
`b_loaded = true`. -/
theorem allocate_file_callback_forces_eager_load_witness :
    ((Plugin.mk (Module.mk (ModuleFields.mk false false none 0 "acc" [ConfigItem.mk 0 true false]) []) "libx_plugin.so" 7 9).module.b_loaded = false
      ∧ (∃ c ∈ (Plugin.mk (Module.mk (ModuleFields.mk false false none 0 "acc" [ConfigItem.mk 0 true false]) []) "libx_plugin.so" 7 9).module.p_config,
          c.list_count = 0 ∧ (c.psz_cb = true ∨ c.i_cb = true)))
    ∧ ∃ p, AllocatePluginFile .CACHE_USE
        (some (Plugin.mk (Module.mk (ModuleFields.mk false false none 0 "acc" [ConfigItem.mk 0 true false]) []) "libx_plugin.so" 7 9))
        none
        (some (Plugin.mk (Module.mk (ModuleFields.mk false false none 0 "acc" [ConfigItem.mk 0 true false]) []) "libx_plugin.so" 7 9))
        "/plugins/libx_plugin.so" "libx_plugin.so" 7 9 [] []
        = .ret 0 (p :: []) ([] ++ [p])
      ∧ p.module.b_loaded = true := by
  refine ⟨⟨rfl, ⟨ConfigItem.mk 0 true false, ?_, rfl, Or.inl rfl⟩⟩, ?_⟩
  · simp [Module.p_config, Module.fields]
  · exact allocate_file_callback_forces_eager_load.1
      (Plugin.mk (Module.mk (ModuleFields.mk false false none 0 "acc" [ConfigItem.mk 0 true false]) []) "libx_plugin.so" 7 9)
      (Plugin.mk (Module.mk (ModuleFields.mk false false none 0 "acc" [ConfigItem.mk 0 true false]) []) "libx_plugin.so" 7 9)
      none "/plugins/libx_plugin.so" "libx_plugin.so" 7 9 [] []
      rfl
      ⟨ConfigItem.mk 0 true false, by simp [Module.p_config, Module.fields], rfl, Or.inl rfl⟩

end VlcBank
